import Mathlib

/-!
Verification development for the trajectory conflict-detection core
(`rmf_traffic/DetectConflict.cpp`), the AGV state record
(`rmf_tasks/agv/State.cpp`) and the waypoint reservation scheduler
(specified in the repository's documentation and exercised by
`test_ReservationSystem.cpp`).

Times, positions and scalar lengths are modelled as rationals.  External
collaborators that the repository only links against (the FCL continuous
collision solver, the `Spline` evaluator of the trajectory library, the
`DistanceDifferential` analyzer) are modelled as oracle functions gathered
in an `Env` record; everything implemented inside the repository's own
sources is translated definition by definition.
-/

namespace Rmf

/-- Position or velocity sample: x, y, yaw. -/
abbrev Pos : Type := ℚ × ℚ × ℚ

/-- Minimum of a non-empty list of rationals (`std::min_element`);
defaults to 0 on the empty list, which the code rules out by assertion. -/
def list_min : List ℚ → ℚ
  | [] => 0
  | x :: xs => xs.foldl min x

/-- Maximum of a non-empty list of rationals (`std::max_element`). -/
def list_max : List ℚ → ℚ
  | [] => 0
  | x :: xs => xs.foldl max x

theorem foldl_min_le_init (xs : List ℚ) : ∀ a : ℚ, xs.foldl min a ≤ a := by
  induction xs with
  | nil => intro a; simp
  | cons x xs ih =>
    intro a
    calc (x :: xs).foldl min a = xs.foldl min (min a x) := by simp [List.foldl]
    _ ≤ min a x := ih (min a x)
    _ ≤ a := min_le_left _ _

theorem foldl_min_le_mem {xs : List ℚ} {x : ℚ} (h : x ∈ xs) :
    ∀ a : ℚ, xs.foldl min a ≤ x := by
  induction xs with
  | nil => cases h
  | cons y ys ih =>
    intro a
    rcases List.mem_cons.mp h with hy | hmem
    · subst hy
      calc (x :: ys).foldl min a = ys.foldl min (min a x) := by simp [List.foldl]
      _ ≤ min a x := foldl_min_le_init ys (min a x)
      _ ≤ x := min_le_right _ _
    · simpa [List.foldl] using ih hmem (min a y)

theorem list_min_le_mem {xs : List ℚ} {x : ℚ} (h : x ∈ xs) : list_min xs ≤ x := by
  cases xs with
  | nil => cases h
  | cons y ys =>
    rcases List.mem_cons.mp h with hy | hmem
    · subst hy
      exact foldl_min_le_init ys x
    · exact foldl_min_le_mem hmem y

theorem init_le_foldl_max (xs : List ℚ) : ∀ a : ℚ, a ≤ xs.foldl max a := by
  induction xs with
  | nil => intro a; simp
  | cons x xs ih =>
    intro a
    calc a ≤ max a x := le_max_left _ _
    _ ≤ xs.foldl max (max a x) := ih (max a x)
    _ = (x :: xs).foldl max a := by simp [List.foldl]

theorem mem_le_foldl_max {xs : List ℚ} {x : ℚ} (h : x ∈ xs) :
    ∀ a : ℚ, x ≤ xs.foldl max a := by
  induction xs with
  | nil => cases h
  | cons y ys ih =>
    intro a
    rcases List.mem_cons.mp h with hy | hmem
    · subst hy
      calc x ≤ max a x := le_max_right _ _
      _ ≤ ys.foldl max (max a x) := init_le_foldl_max ys (max a x)
      _ = (x :: ys).foldl max a := by simp [List.foldl]
    · simpa [List.foldl] using ih hmem (max a y)

theorem mem_le_list_max {xs : List ℚ} {x : ℚ} (h : x ∈ xs) : x ≤ list_max xs := by
  cases xs with
  | nil => cases h
  | cons y ys =>
    rcases List.mem_cons.mp h with hy | hmem
    · subst hy
      exact init_le_foldl_max ys x
    · exact mem_le_foldl_max hmem y

/-- Per-dimension cubic coefficients, `coeffs[0] .. coeffs[3]` of the source. -/
structure Vec4 where
  c0 : ℚ
  c1 : ℚ
  c2 : ℚ
  c3 : ℚ
deriving DecidableEq, Repr

/-- Translation of `evaluate_spline`: value of the cubic at normalized time. -/
def evaluate_spline (coeffs : Vec4) (t : ℚ) : ℚ :=
  coeffs.c3 * t * t * t + coeffs.c2 * t * t + coeffs.c1 * t + coeffs.c0

/-- Candidate extrema values collected by `get_local_extrema`.  The square
root applied to the discriminant is the external `std::sqrt`, passed in as
the oracle `sq`.  The boundary values come first; interior critical points
are appended without any range test, exactly as in the source. -/
def extrema_candidates (sq : ℚ → ℚ) (coeffs : Vec4) : List ℚ :=
  [evaluate_spline coeffs 0, evaluate_spline coeffs 1] ++
  (if |coeffs.c3| < 1 / 10 ^ 12 then
    (if |coeffs.c2| > 1 / 10 ^ 12 then
      [evaluate_spline coeffs (-coeffs.c1 / (2 * coeffs.c2))]
    else [])
  else
    (let D := 4 * coeffs.c2 ^ 2 - 12 * coeffs.c3 * coeffs.c1
     if |D| < 1 / 10 ^ 4 then
       [evaluate_spline coeffs ((-2 * coeffs.c2) / (6 * coeffs.c3))]
     else if D < 0 then []
     else
       [evaluate_spline coeffs (((-2 * coeffs.c2) + sq D) / (6 * coeffs.c3)),
        evaluate_spline coeffs (((-2 * coeffs.c2) - sq D) / (6 * coeffs.c3))]))

/-- Translation of `get_local_extrema`: `(min, max)` over the candidates. -/
def get_local_extrema (sq : ℚ → ℚ) (coeffs : Vec4) : ℚ × ℚ :=
  (list_min (extrema_candidates sq coeffs), list_max (extrema_candidates sq coeffs))

/-- The specification's version of the extrema computation, stated for
comparison with `get_local_extrema`: the same critical-point formulas, but
only candidates whose parameter lies in the interval from 0 to 1
participate, while the endpoints are always candidates. -/
def spec_local_extrema (sq : ℚ → ℚ) (coeffs : Vec4) : ℚ × ℚ :=
  let roots : List ℚ :=
    if |coeffs.c3| < 1 / 10 ^ 12 then
      (if |coeffs.c2| > 1 / 10 ^ 12 then [-coeffs.c1 / (2 * coeffs.c2)] else [])
    else
      (let D := 4 * coeffs.c2 ^ 2 - 12 * coeffs.c3 * coeffs.c1
       if |D| < 1 / 10 ^ 4 then [(-2 * coeffs.c2) / (6 * coeffs.c3)]
       else if D < 0 then []
       else [((-2 * coeffs.c2) + sq D) / (6 * coeffs.c3),
             ((-2 * coeffs.c2) - sq D) / (6 * coeffs.c3)])
  let cands : List ℚ :=
    [evaluate_spline coeffs 0, evaluate_spline coeffs 1] ++
      ((roots.filter (fun t => decide (0 ≤ t) && decide (t ≤ 1))).map
        (evaluate_spline coeffs))
  (list_min cands, list_max cands)

/-- Finite axis-aligned bounding box over x and y. -/
structure Box2 where
  minX : ℚ
  minY : ℚ
  maxX : ℚ
  maxY : ℚ
deriving DecidableEq, Repr

/-- A `BoundingBox` of the source: either a finite box, or the `void_box`
(whose min is plus infinity and max is minus infinity, so that it can never
overlap anything).  The void box is encoded as `none`. -/
abbrev BoundingBox : Type := Option Box2

/-- Translation of `overlap`: per-axis interval tests.  A comparison against
the infinities of the void box is always in that box's favour, so `none`
overlaps nothing, exactly as in the source. -/
def overlap (a b : BoundingBox) : Bool :=
  match a, b with
  | some a, some b =>
    if a.maxX < b.minX then false
    else if b.maxX < a.minX then false
    else if a.maxY < b.minY then false
    else if b.maxY < a.minY then false
    else true
  | _, _ => false

/-- Translation of `adjust_bounding_box`: inflate by a characteristic length. -/
def adjust_bounding_box (input : Box2) (value : ℚ) : Box2 :=
  ⟨input.minX - value, input.minY - value, input.maxX + value, input.maxY + value⟩

/-- A finalized convex shape (`geometry::FinalConvexShape`).  The repository
treats these as opaque shared pointers; `sid` models pointer identity (the
`!=` comparisons in the source compare pointers, not geometric content) and
`charLength` is the characteristic length used for bounding-box inflation. -/
structure Shape where
  sid : ℕ
  charLength : ℚ
deriving DecidableEq, Repr

/-- Placeholder shape standing for a dereferenced absent pointer.  The
source dereferences `profile.footprint` and friends only behind guards that
make the shape present, so this default is never consulted on the paths the
theorems traverse. -/
def dshape : Shape := ⟨0, 0⟩

/-- The `Profile::Implementation` pair of optional convex shapes. -/
structure ProfileImpl where
  footprint : Option Shape
  vicinity : Option Shape
deriving DecidableEq, Repr

/-- Translation of `convert_profile`: an absent vicinity is promoted to the
footprint (which may itself be absent). -/
def convert_profile (profile : ProfileImpl) : ProfileImpl :=
  if profile.vicinity = none then { profile with vicinity := profile.footprint }
  else profile

/-- A trajectory waypoint: time, position, velocity. -/
structure Waypoint where
  time : ℚ
  position : Pos
  velocity : Pos
deriving DecidableEq, Repr

instance : Inhabited Waypoint := ⟨⟨0, (0, 0, 0), (0, 0, 0)⟩⟩

/-- The data of an `rmf_traffic::Spline` that `DetectConflict.cpp` reads:
its absolute start and finish times and its per-axis cubic coefficients
(`get_params().coeffs[0]` and `coeffs[1]`). -/
structure Spline where
  startTime : ℚ
  finishTime : ℚ
  cx : Vec4
  cy : Vec4
deriving DecidableEq, Repr

/-- Oracles for the external collaborators of `DetectConflict.cpp`: the
`Spline` constructor and evaluators of the trajectory library, the FCL
continuous-collision and discrete-collision solvers, the
`DistanceDifferential` analyzer, and `std::sqrt`.  The detection engine is
parametric in these, mirroring how the source delegates to them. -/
structure Env where
  sqrtQ : ℚ → ℚ
  mkSpline : Waypoint → Waypoint → Spline
  splinePos : Spline → ℚ → Pos
  splineVel : Spline → ℚ → Pos
  cc : Shape → Spline → Shape → Spline → ℚ → ℚ → Option ℚ
  staticCollide : Shape → Pos → Shape → Pos → Bool
  initiallyApproaching : Spline → Spline → Bool
  approachTimes : Spline → Spline → List ℚ
  ccRegion : Shape → Spline → ℚ → ℚ → Pos → Shape → Option ℚ

/-- Translation of `get_bounding_box`: per-axis extrema of the spline. -/
def get_bounding_box (env : Env) (spline : Spline) : Box2 :=
  let ex := get_local_extrema env.sqrtQ spline.cx
  let ey := get_local_extrema env.sqrtQ spline.cy
  ⟨ex.1, ey.1, ex.2, ey.2⟩

/-- Translation of `BoundingProfile`. -/
structure BoundingProfile where
  footprint : BoundingBox
  vicinity : BoundingBox
deriving DecidableEq, Repr

/-- Translation of `get_bounding_profile`: inflate the base box by each
present shape's characteristic length; an absent shape gets the void box. -/
def get_bounding_profile (env : Env) (spline : Spline) (profile : ProfileImpl) :
    BoundingProfile :=
  let base := get_bounding_box env spline
  ⟨profile.footprint.map (fun s => adjust_bounding_box base s.charLength),
   profile.vicinity.map (fun s => adjust_bounding_box base s.charLength)⟩

/-- Translation of `compute_time`: map a scaled fraction of the motion
interval back to an absolute time. -/
def compute_time (scaled_time start_time finish_time : ℚ) : ℚ :=
  start_time + scaled_time * (finish_time - start_time)

/-- Translation of the static `check_overlap`: collide the pairs
(footprint a, vicinity b) and (vicinity a, footprint b) at the sampled
time.  The source dereferences the shape pointers unconditionally; absent
shapes are represented by `dshape`. -/
def check_overlap (env : Env) (profile_a : ProfileImpl) (spline_a : Spline)
    (profile_b : ProfileImpl) (spline_b : Spline) (time : ℚ) : Bool :=
  let pos_a := env.splinePos spline_a time
  let pos_b := env.splinePos spline_b time
  env.staticCollide (profile_a.footprint.getD dshape) pos_a
      (profile_b.vicinity.getD dshape) pos_b
  || env.staticCollide (profile_a.vicinity.getD dshape) pos_a
      (profile_b.footprint.getD dshape) pos_b

/-- Start time of a trajectory: the first waypoint's time. -/
def trajStartTime (wps : List Waypoint) : ℚ := (wps.headD default).time

/-- Finish time of a trajectory: the last waypoint's time. -/
def trajFinishTime (wps : List Waypoint) : ℚ := (wps.getLastD default).time

/-- Translation of `have_time_overlap`: no conflict is possible when one
trajectory finishes before the other starts. -/
def have_time_overlap (wa wb : List Waypoint) : Bool :=
  if trajFinishTime wb < trajStartTime wa then false
  else if trajFinishTime wa < trajStartTime wb then false
  else true

/-- Modelled from the spec: `Trajectory::find` of the trajectory library is
not part of the sources; per the specification, it seeks to the segment
containing the given time, each segment being identified by its right-hand
waypoint.  This returns the index of that waypoint. -/
def trajFind (wps : List Waypoint) (t : ℚ) : ℕ :=
  wps.findIdx (fun w => decide (t ≤ w.time))

/-- Translation of `get_initial_iterators`: the later-starting trajectory
begins at its second waypoint while the other is sought to the segment that
contains the later start time.  Iterators are waypoint indices. -/
def get_initial_iterators (wa wb : List Waypoint) : ℕ × ℕ :=
  let t_a0 := trajStartTime wa
  let t_b0 := trajStartTime wb
  if t_a0 < t_b0 then (trajFind wa t_b0, 1)
  else if t_b0 < t_a0 then (1, trajFind wb t_a0)
  else (1, 1)

/-- The spline whose right-hand waypoint is index `i` (`Spline(it)`). -/
def splineAt (env : Env) (wps : List Waypoint) (i : ℕ) : Spline :=
  env.mkSpline (wps.getD (i - 1) default) (wps.getD i default)

/-- A detected conflict: the two segment iterators (as right-hand waypoint
indices) and the absolute conflict time. -/
structure Conflict where
  a_idx : ℕ
  b_idx : ℕ
  time : ℚ
deriving DecidableEq, Repr

/-- First narrowphase test of the invasion loop: footprint of `a` against
vicinity of `b`, gated by the broadphase boxes, with the contact fraction
mapped back to an absolute time. -/
def invasion_check1 (env : Env) (profile_a profile_b : ProfileImpl)
    (spline_a spline_b : Spline) : Option ℚ :=
  let t0 := max spline_a.startTime spline_b.startTime
  let t1 := min spline_a.finishTime spline_b.finishTime
  if overlap (get_bounding_profile env spline_a profile_a).footprint
      (get_bounding_profile env spline_b profile_b).vicinity then
    (env.cc (profile_a.footprint.getD dshape) spline_a
        (profile_b.vicinity.getD dshape) spline_b t0 t1).map
      (fun c => compute_time c t0 t1)
  else none

/-- Complement narrowphase test of the invasion loop: vicinity of `a`
against footprint of `b`. -/
def invasion_check2 (env : Env) (profile_a profile_b : ProfileImpl)
    (spline_a spline_b : Spline) : Option ℚ :=
  let t0 := max spline_a.startTime spline_b.startTime
  let t1 := min spline_a.finishTime spline_b.finishTime
  if overlap (get_bounding_profile env spline_a profile_a).vicinity
      (get_bounding_profile env spline_b profile_b).footprint then
    (env.cc (profile_a.vicinity.getD dshape) spline_a
        (profile_b.footprint.getD dshape) spline_b t0 t1).map
      (fun c => compute_time c t0 t1)
  else none

/-- One iteration of the invasion loop over a pair of concurrent splines.
Without an output list (`collect = false`) the first collision returns
immediately (`Sum.inl`); with one, collisions are appended in discovery
order and the loop continues (`Sum.inr`). -/
def invasion_body (env : Env) (profile_a profile_b : ProfileImpl)
    (test_complement collect : Bool) (spline_a spline_b : Spline)
    (ia ib : ℕ) (acc : List Conflict) :
    (Option ℚ × List Conflict) ⊕ List Conflict :=
  let o1 := invasion_check1 env profile_a profile_b spline_a spline_b
  if !collect && o1.isSome then .inl (o1, acc)
  else
    let acc1 := acc ++ (o1.map (fun t => Conflict.mk ia ib t)).toList
    let o2 := if test_complement then
        invasion_check2 env profile_a profile_b spline_a spline_b
      else none
    if !collect && o2.isSome then .inl (o2, acc1)
    else .inr (acc1 ++ (o2.map (fun t => Conflict.mk ia ib t)).toList)

/-- The while loop of `detect_invasion`, walking the two spline sequences
in lock-step by finish time.  `fuel` bounds the number of iterations; the
callers supply more fuel than the loop can consume, so the fuel-exhausted
branch (which returns the same value as normal loop exit) is unreachable. -/
def invasion_loop (env : Env) (profile_a : ProfileImpl) (wa : List Waypoint)
    (profile_b : ProfileImpl) (wb : List Waypoint)
    (test_complement collect : Bool) :
    ℕ → ℕ → ℕ → List Conflict → Option ℚ × List Conflict
  | 0, _, _, acc => (acc.head?.map Conflict.time, acc)
  | fuel + 1, ia, ib, acc =>
    if ia < wa.length ∧ ib < wb.length then
      let spline_a := splineAt env wa ia
      let spline_b := splineAt env wb ib
      match invasion_body env profile_a profile_b test_complement collect
          spline_a spline_b ia ib acc with
      | .inl r => r
      | .inr acc2 =>
        if spline_a.finishTime < spline_b.finishTime then
          invasion_loop env profile_a wa profile_b wb test_complement collect
            fuel (ia + 1) ib acc2
        else if spline_b.finishTime < spline_a.finishTime then
          invasion_loop env profile_a wa profile_b wb test_complement collect
            fuel ia (ib + 1) acc2
        else
          invasion_loop env profile_a wa profile_b wb test_complement collect
            fuel (ia + 1) (ib + 1) acc2
    else (acc.head?.map Conflict.time, acc)

/-- Translation of `detect_invasion`: computes the complement-test flag
(pointer inequality of vicinity and footprint), clears the output list and
runs the loop. -/
def detect_invasion (env : Env) (profile_a : ProfileImpl) (wa : List Waypoint)
    (ia : ℕ) (profile_b : ProfileImpl) (wb : List Waypoint) (ib : ℕ)
    (collect : Bool) : Option ℚ × List Conflict :=
  let test_complement :=
    decide (profile_a.vicinity ≠ profile_a.footprint)
      || decide (profile_b.vicinity ≠ profile_b.footprint)
  invasion_loop env profile_a wa profile_b wb test_complement collect
    (wa.length + wb.length + 1) ia ib []

/-- Translation of `slice_trajectory`: a synthetic leading waypoint sampled
from the spline at the splice time, followed by the remaining waypoints. -/
def slice_trajectory (env : Env) (start_time : ℚ) (spline : Spline)
    (rest : List Waypoint) : List Waypoint :=
  ⟨start_time, env.splinePos spline start_time, env.splineVel spline start_time⟩
    :: rest

/-- The for-loop of `detect_approach` over the approach times of one spline
pair.  When the vehicles are no longer within each other's vicinity at an
approach time, both trajectories are sliced at that time and detection
reverts to the invasion loop (an early return, `Sum.inl`); otherwise the
approach time itself is a conflict. -/
def approach_times_loop (env : Env) (profile_a : ProfileImpl)
    (wa : List Waypoint) (profile_b : ProfileImpl) (wb : List Waypoint)
    (ia ib : ℕ) (spline_a spline_b : Spline) (collect : Bool) :
    List ℚ → List Conflict → (Option ℚ × List Conflict) ⊕ List Conflict
  | [], acc => .inr acc
  | t :: ts, acc =>
    if check_overlap env profile_a spline_a profile_b spline_b t = false then
      .inl (detect_invasion env
        profile_a (slice_trajectory env t spline_a (wa.drop ia)) 1
        profile_b (slice_trajectory env t spline_b (wb.drop ib)) 1 collect)
    else if !collect then .inl (some t, acc)
    else approach_times_loop env profile_a wa profile_b wb ia ib
      spline_a spline_b collect ts (acc ++ [Conflict.mk ia ib t])

/-- The while loop of `detect_approach`.  The `DistanceDifferential` of the
concurrent spline pair starts at the later spline start and finishes at the
earlier spline finish; its sign analysis is delegated to the oracles.  As
in `invasion_loop`, `fuel` dominates the iteration count. -/
def approach_loop (env : Env) (profile_a : ProfileImpl) (wa : List Waypoint)
    (profile_b : ProfileImpl) (wb : List Waypoint) (collect : Bool) :
    ℕ → ℕ → ℕ → List Conflict → Option ℚ × List Conflict
  | 0, _, _, acc => (acc.head?.map Conflict.time, acc)
  | fuel + 1, ia, ib, acc =>
    if ia < wa.length ∧ ib < wb.length then
      let spline_a := splineAt env wa ia
      let spline_b := splineAt env wb ib
      let d_start := max spline_a.startTime spline_b.startTime
      let d_finish := min spline_a.finishTime spline_b.finishTime
      if !collect && env.initiallyApproaching spline_a spline_b then
        (some d_start, acc)
      else
        let acc1 := acc ++
          (if env.initiallyApproaching spline_a spline_b then
            [Conflict.mk ia ib d_start]
          else [])
        match approach_times_loop env profile_a wa profile_b wb ia ib
            spline_a spline_b collect
            (env.approachTimes spline_a spline_b) acc1 with
        | .inl r => r
        | .inr acc2 =>
          let still_close :=
            check_overlap env profile_a spline_a profile_b spline_b d_finish
          if spline_a.finishTime < spline_b.finishTime then
            (if still_close = false then
              detect_invasion env profile_a wa (ia + 1) profile_b wb ib collect
            else
              approach_loop env profile_a wa profile_b wb collect fuel
                (ia + 1) ib acc2)
          else if spline_b.finishTime < spline_a.finishTime then
            (if still_close = false then
              detect_invasion env profile_a wa ia profile_b wb (ib + 1) collect
            else
              approach_loop env profile_a wa profile_b wb collect fuel
                ia (ib + 1) acc2)
          else
            (if still_close = false then
              detect_invasion env profile_a wa (ia + 1) profile_b wb (ib + 1)
                collect
            else
              approach_loop env profile_a wa profile_b wb collect fuel
                (ia + 1) (ib + 1) acc2)
    else (acc.head?.map Conflict.time, acc)

/-- Translation of `detect_approach` (entered with the caller's output list,
which at that point is empty). -/
def detect_approach (env : Env) (profile_a : ProfileImpl) (wa : List Waypoint)
    (ia : ℕ) (profile_b : ProfileImpl) (wb : List Waypoint) (ib : ℕ)
    (collect : Bool) : Option ℚ × List Conflict :=
  approach_loop env profile_a wa profile_b wb collect
    (wa.length + wb.length + 1) ia ib []

/-- Translation of `close_start`: static overlap of the two profiles at the
later of the two initial spline start times. -/
def close_start (env : Env) (profile_a : ProfileImpl) (wa : List Waypoint)
    (ia : ℕ) (profile_b : ProfileImpl) (wb : List Waypoint) (ib : ℕ) : Bool :=
  let spline_a := splineAt env wa ia
  let spline_b := splineAt env wb ib
  check_overlap env profile_a spline_a profile_b spline_b
    (max spline_a.startTime spline_b.startTime)

/-- The `invalid_trajectory_error` raised for trajectories with fewer than
two waypoints; it records the offending waypoint count. -/
inductive DetectError where
  | invalidTrajectory (num : ℕ)
deriving DecidableEq, Repr

/-- Translation of `DetectConflict::Implementation::between`: input checks,
profile normalization, geometry and time-overlap early exits, iterator
alignment, then dispatch on starting proximity.  `collect` is true when the
caller supplied an output list (the `between_all` form). -/
def between_impl (env : Env) (input_profile_a : ProfileImpl)
    (wa : List Waypoint) (input_profile_b : ProfileImpl) (wb : List Waypoint)
    (collect : Bool) : Except DetectError (Option ℚ × List Conflict) :=
  if wa.length < 2 then .error (.invalidTrajectory wa.length)
  else if wb.length < 2 then .error (.invalidTrajectory wb.length)
  else
    let profile_a := convert_profile input_profile_a
    let profile_b := convert_profile input_profile_b
    if profile_a.footprint = none ∧ profile_b.footprint = none then
      .ok (none, [])
    else if profile_a.vicinity = none ∨ profile_b.vicinity = none then
      .ok (none, [])
    else if have_time_overlap wa wb = false then .ok (none, [])
    else
      let its := get_initial_iterators wa wb
      if close_start env profile_a wa its.1 profile_b wb its.2 then
        .ok (detect_approach env profile_a wa its.1 profile_b wb its.2 collect)
      else
        .ok (detect_invasion env profile_a wa its.1 profile_b wb its.2 collect)

/-- The public `DetectConflict::between` overload: no output list, only the
earliest conflict time is reported. -/
def DetectConflict_between (env : Env) (profile_a : ProfileImpl)
    (wa : List Waypoint) (profile_b : ProfileImpl) (wb : List Waypoint) :
    Except DetectError (Option ℚ) :=
  (between_impl env profile_a wa profile_b wb false).map Prod.fst

/-- The extended `between` overload: the output list is populated with every
detected conflict in discovery order. -/
def DetectConflict_between_all (env : Env) (profile_a : ProfileImpl)
    (wa : List Waypoint) (profile_b : ProfileImpl) (wb : List Waypoint) :
    Except DetectError (Option ℚ × List Conflict) :=
  between_impl env profile_a wa profile_b wb true

/-- A stationary spacetime region (`internal::Spacetime`): an optional time
window, a pose, and the convex pieces of the region shape. -/
structure Spacetime where
  lower_time_bound : Option ℚ
  upper_time_bound : Option ℚ
  pose : Pos
  shapes : List Shape

/-- The inner loop of `internal::detect_conflicts` over the convex pieces of
the region shape: continuous collision of the vicinity against each piece;
without an output list the first hit returns `true` immediately. -/
def region_shapes_loop (env : Env) (vicinity : Shape) (spline : Spline)
    (t0 t1 : ℚ) (pose : Pos) (collect : Bool) (it : ℕ) :
    List Shape → List Conflict → (Bool × List Conflict) ⊕ List Conflict
  | [], acc => .inr acc
  | s :: ss, acc =>
    match env.ccRegion vicinity spline t0 t1 pose s with
    | some c =>
      if !collect then .inl (true, acc)
      else region_shapes_loop env vicinity spline t0 t1 pose collect it ss
        (acc ++ [Conflict.mk it it (compute_time c t0 t1)])
    | none => region_shapes_loop env vicinity spline t0 t1 pose collect it ss acc

/-- The outer loop of `internal::detect_conflicts` over the trajectory
segments inside the region's time window. -/
def region_loop (env : Env) (vicinity : Shape) (wps : List Waypoint)
    (startT finishT : ℚ) (pose : Pos) (shapes : List Shape) (collect : Bool)
    (endIdx : ℕ) : ℕ → ℕ → List Conflict → Bool × List Conflict
  | 0, _, acc => (if collect then !acc.isEmpty else false, acc)
  | fuel + 1, it, acc =>
    if it < endIdx then
      let spline := splineAt env wps it
      let t0 := max spline.startTime startT
      let t1 := min spline.finishTime finishT
      match region_shapes_loop env vicinity spline t0 t1 pose collect it
          shapes acc with
      | .inl r => r
      | .inr acc2 =>
        region_loop env vicinity wps startT finishT pose shapes collect endIdx
          fuel (it + 1) acc2
    else (if collect then !acc.isEmpty else false, acc)

/-- Translation of `internal::detect_conflicts`: test one trajectory
against a stationary spacetime region.  The debug-build waypoint-count
check is modelled as the same `invalid_trajectory_error`.  Note that,
unlike `between`, this operation reads `profile.vicinity` directly with no
`convert_profile` normalization, and returns `false` (leaving the output
list untouched) when the vicinity is absent. -/
def internal_detect_conflicts (env : Env) (profile : ProfileImpl)
    (wps : List Waypoint) (region : Spacetime) (collect : Bool)
    (acc0 : List Conflict) : Except DetectError (Bool × List Conflict) :=
  if wps.length < 2 then .error (.invalidTrajectory wps.length)
  else
    match profile.vicinity with
    | none => .ok (false, acc0)
    | some vicinity =>
      let trajStart := trajStartTime wps
      let trajFinish := trajFinishTime wps
      let startT := match region.lower_time_bound with
        | some l => max l trajStart
        | none => trajStart
      let finishT := match region.upper_time_bound with
        | some u => min u trajFinish
        | none => trajFinish
      if finishT < startT then .ok (false, acc0)
      else
        let beginIdx := if trajStart < startT then trajFind wps startT else 1
        let endIdx := if finishT < trajFinish then trajFind wps finishT + 1
          else wps.length
        .ok (region_loop env vicinity wps startT finishT region.pose
          region.shapes collect endIdx (wps.length + 1) beginIdx [])

/-- The `rmf_tasks::agv::State` record: a waypoint index, a charging
waypoint index, a finish time, and two state-of-charge fractions. -/
structure State where
  waypoint : ℕ
  charging_waypoint : ℕ
  finish_time : ℚ
  battery_soc : ℚ
  threshold_soc : ℚ
deriving DecidableEq, Repr

/-- Setter overload `State::waypoint(std::size_t)`. -/
def State.set_waypoint (s : State) (new_waypoint : ℕ) : State :=
  { s with waypoint := new_waypoint }

/-- Setter overload `State::charging_waypoint(std::size_t)`. -/
def State.set_charging_waypoint (s : State) (new_charging_waypoint : ℕ) : State :=
  { s with charging_waypoint := new_charging_waypoint }

/-- Setter overload `State::finish_time(rmf_traffic::Time)`. -/
def State.set_finish_time (s : State) (new_finish_time : ℚ) : State :=
  { s with finish_time := new_finish_time }

/-- Setter overload `State::battery_soc(double)`. -/
def State.set_battery_soc (s : State) (new_battery_soc : ℚ) : State :=
  { s with battery_soc := new_battery_soc }

/-- Setter overload `State::threshold_soc(double)`. -/
def State.set_threshold_soc (s : State) (new_threshold_soc : ℚ) : State :=
  { s with threshold_soc := new_threshold_soc }

/-- Modelled from the spec: a reservation of the scheduler, carrying a
globally unique id, the granted resource, and the half-open occupied
interval, whose end is `none` for an indefinite hold.  The scheduler's
implementation is not among the sources; only its unit tests are. -/
structure Reservation where
  reservation_id : ℕ
  waypoint : String
  start_time : ℚ
  finish_time : Option ℚ
deriving DecidableEq, Repr

/-- Modelled from the spec: the `ReservationSystem` state, a fresh-id
counter and the set of live reservations. -/
structure ReservationSystem where
  next_id : ℕ
  reservations : List Reservation
deriving DecidableEq, Repr

/-- Modelled from the spec: two half-open intervals (with an optional
infinite end) overlap; touching endpoints are allowed. -/
def intervals_overlap (s1 : ℚ) (e1 : Option ℚ) (s2 : ℚ) (e2 : Option ℚ) : Bool :=
  (match e2 with
   | none => true
   | some e => decide (s1 < e)) &&
  (match e1 with
   | none => true
   | some e => decide (s2 < e))

/-- Modelled from the spec: whether the candidate interval overlaps some
existing reservation on the given resource. -/
def conflicts_on (reservations : List Reservation) (w : String) (s : ℚ)
    (e : Option ℚ) : Bool :=
  reservations.any (fun r =>
    r.waypoint = w && intervals_overlap s e r.start_time r.finish_time)

/-- End of the requested interval: `start + duration`, or indefinite. -/
def reservation_end (start_time : ℚ) (duration : Option ℚ) : Option ℚ :=
  duration.map (fun d => start_time + d)

/-- Modelled from the spec: `ReservationSystem::reserve`.  The resources
form an ordered preference list; the first whose interval is free of
overlaps is granted a reservation with a fresh id, and `none` is returned
when every candidate conflicts. -/
def reserve (sys : ReservationSystem) (start_time : ℚ)
    (resources : List String) (duration : Option ℚ) :
    Option Reservation × ReservationSystem :=
  let e := reservation_end start_time duration
  match resources.find?
      (fun w => !(conflicts_on sys.reservations w start_time e)) with
  | some w =>
    let r : Reservation := ⟨sys.next_id, w, start_time, e⟩
    (some r, ⟨sys.next_id + 1, sys.reservations ++ [r]⟩)
  | none => (none, sys)

/-- The `UnknownReservation` failure of cancellation. -/
inductive ReservationError where
  | unknownReservation (id : ℕ)
deriving DecidableEq, Repr

/-- Modelled from the spec: `ReservationSystem::cancel_reservation` removes
the reservation with the given id and fails when no such id is live. -/
def cancel_reservation (sys : ReservationSystem) (id : ℕ) :
    Except ReservationError ReservationSystem :=
  if sys.reservations.any (fun r => r.reservation_id = id) then
    .ok ⟨sys.next_id,
      sys.reservations.filter (fun r => r.reservation_id ≠ id)⟩
  else .error (.unknownReservation id)

instance instDecEqExcept {ε α : Type} [DecidableEq ε] [DecidableEq α] :
    DecidableEq (Except ε α) := fun x y =>
  match x, y with
  | .ok a, .ok b =>
    if h : a = b then .isTrue (by rw [h])
    else .isFalse (by intro hc; injection hc with h2; exact h h2)
  | .error a, .error b =>
    if h : a = b then .isTrue (by rw [h])
    else .isFalse (by intro hc; injection hc with h2; exact h h2)
  | .ok _, .error _ => .isFalse (by intro hc; exact Except.noConfusion hc)
  | .error _, .ok _ => .isFalse (by intro hc; exact Except.noConfusion hc)

/-- Symmetric table of continuous-collision contact fractions used by the
concrete scenario below, keyed by the unordered pair of shape identities.
The pair of footprint a (id 0) with vicinity b (id 3) first touches at
fraction one half; the pair of vicinity a (id 1) with footprint b (id 2),
whose combined radius is larger, touches earlier, at one quarter. -/
def ccTable (i j : ℕ) : Option ℚ :=
  if i = 0 ∧ j = 3 then some ((1 : ℚ) / 2)
  else if i = 1 ∧ j = 2 then some ((1 : ℚ) / 4)
  else none

/-- A concrete, physically consistent oracle environment: trivial splines,
a symmetric continuous-collision table, no static overlap and no approach
events.  All of its oracles are symmetric in their two moving bodies. -/
def cEnv : Env where
  sqrtQ := fun _ => 0
  mkSpline := fun w1 w2 => ⟨w1.time, w2.time, ⟨0, 0, 0, 0⟩, ⟨0, 0, 0, 0⟩⟩
  splinePos := fun _ _ => (0, 0, 0)
  splineVel := fun _ _ => (0, 0, 0)
  cc := fun s1 _ s2 _ _ _ => ccTable (min s1.sid s2.sid) (max s1.sid s2.sid)
  staticCollide := fun _ _ _ _ => false
  initiallyApproaching := fun _ _ => false
  approachTimes := fun _ _ => []
  ccRegion := fun _ _ _ _ _ _ => none

/-- Profile of vehicle a: footprint id 0, vicinity id 1. -/
def cpa : ProfileImpl := ⟨some ⟨0, 1⟩, some ⟨1, 1⟩⟩

/-- Profile of vehicle b: footprint id 2, vicinity id 3. -/
def cpb : ProfileImpl := ⟨some ⟨2, 1⟩, some ⟨3, 1⟩⟩

/-- A two-waypoint trajectory on the time interval from 0 to 1, used for
both vehicles of the concrete scenario. -/
def cwa : List Waypoint := [⟨0, (0, 0, 0), (0, 0, 0)⟩, ⟨1, (0, 0, 0), (0, 0, 0)⟩]

/-- Quadratic coefficient vector whose interior critical point lies at
parameter 5, far outside the unit interval. -/
def ex3 : Vec4 := ⟨0, -10, 1, 0⟩

/-- A profile with no geometry at all. -/
def pempty : ProfileImpl := ⟨none, none⟩

/-- A two-waypoint trajectory on the time interval from 2 to 3, disjoint in
time from `cwa`. -/
def cwb2 : List Waypoint := [⟨2, (0, 0, 0), (0, 0, 0)⟩, ⟨3, (0, 0, 0), (0, 0, 0)⟩]

/-- An unbounded region at the origin with no shape pieces. -/
def cregion : Spacetime := ⟨none, none, (0, 0, 0), []⟩

/-- Footprint of a profile survives normalization. -/
theorem convert_profile_footprint (p : ProfileImpl) :
    (convert_profile p).footprint = p.footprint := by
  unfold convert_profile
  split <;> rfl

/-- C10: each `State` setter writes exactly its own field — the
corresponding getter returns the new value, the four other getters return
what they returned before, and the returned record is the input record with
only that field replaced. -/
theorem State_setter_frame (s : State) (n m : ℕ) (t q1 q2 : ℚ) :
    ((s.set_waypoint n).waypoint = n ∧
      (s.set_waypoint n).charging_waypoint = s.charging_waypoint ∧
      (s.set_waypoint n).finish_time = s.finish_time ∧
      (s.set_waypoint n).battery_soc = s.battery_soc ∧
      (s.set_waypoint n).threshold_soc = s.threshold_soc) ∧
    ((s.set_charging_waypoint m).charging_waypoint = m ∧
      (s.set_charging_waypoint m).waypoint = s.waypoint ∧
      (s.set_charging_waypoint m).finish_time = s.finish_time ∧
      (s.set_charging_waypoint m).battery_soc = s.battery_soc ∧
      (s.set_charging_waypoint m).threshold_soc = s.threshold_soc) ∧
    ((s.set_finish_time t).finish_time = t ∧
      (s.set_finish_time t).waypoint = s.waypoint ∧
      (s.set_finish_time t).charging_waypoint = s.charging_waypoint ∧
      (s.set_finish_time t).battery_soc = s.battery_soc ∧
      (s.set_finish_time t).threshold_soc = s.threshold_soc) ∧
    ((s.set_battery_soc q1).battery_soc = q1 ∧
      (s.set_battery_soc q1).waypoint = s.waypoint ∧
      (s.set_battery_soc q1).charging_waypoint = s.charging_waypoint ∧
      (s.set_battery_soc q1).finish_time = s.finish_time ∧
      (s.set_battery_soc q1).threshold_soc = s.threshold_soc) ∧
    ((s.set_threshold_soc q2).threshold_soc = q2 ∧
      (s.set_threshold_soc q2).waypoint = s.waypoint ∧
      (s.set_threshold_soc q2).charging_waypoint = s.charging_waypoint ∧
      (s.set_threshold_soc q2).finish_time = s.finish_time ∧
      (s.set_threshold_soc q2).battery_soc = s.battery_soc) :=
  ⟨⟨rfl, rfl, rfl, rfl, rfl⟩, ⟨rfl, rfl, rfl, rfl, rfl⟩, ⟨rfl, rfl, rfl, rfl, rfl⟩,
    ⟨rfl, rfl, rfl, rfl, rfl⟩, ⟨rfl, rfl, rfl, rfl, rfl⟩⟩

/-- C3 counterexample: on the quadratic `p` with coefficients (0, -10, 1, 0)
the interior critical point lies at parameter 5, outside the unit interval,
yet `get_local_extrema` lets its value -25 drive the reported minimum; the
specification's filtered candidate set gives (-9, 0) instead. -/
theorem get_local_extrema_range_counterexample :
    get_local_extrema (fun _ => 0) ex3 = (-25, 0) ∧
    spec_local_extrema (fun _ => 0) ex3 = (-9, 0) ∧
    ((-25 : ℚ), (0 : ℚ)) ≠ ((-9 : ℚ), (0 : ℚ)) := by
  refine ⟨?_, ?_, ?_⟩ <;> with_unfolding_all decide

/-- C3 amended: the endpoint values are always candidates and always lie
between the returned minimum and maximum; in the quadratic regime the
interior critical point participates unconditionally, whether or not it
lies in the unit interval. -/
theorem get_local_extrema_candidate_span (sq : ℚ → ℚ) (coeffs : Vec4) :
    ((get_local_extrema sq coeffs).1 ≤ evaluate_spline coeffs 0 ∧
      evaluate_spline coeffs 0 ≤ (get_local_extrema sq coeffs).2) ∧
    ((get_local_extrema sq coeffs).1 ≤ evaluate_spline coeffs 1 ∧
      evaluate_spline coeffs 1 ≤ (get_local_extrema sq coeffs).2) ∧
    (|coeffs.c3| < 1 / 10 ^ 12 → |coeffs.c2| > 1 / 10 ^ 12 →
      (get_local_extrema sq coeffs).1 ≤
          evaluate_spline coeffs (-coeffs.c1 / (2 * coeffs.c2)) ∧
        evaluate_spline coeffs (-coeffs.c1 / (2 * coeffs.c2)) ≤
          (get_local_extrema sq coeffs).2) := by
  have h0 : evaluate_spline coeffs 0 ∈ extrema_candidates sq coeffs := by
    simp [extrema_candidates]
  have h1 : evaluate_spline coeffs 1 ∈ extrema_candidates sq coeffs := by
    simp [extrema_candidates]
  refine ⟨⟨list_min_le_mem h0, mem_le_list_max h0⟩,
    ⟨list_min_le_mem h1, mem_le_list_max h1⟩, ?_⟩
  intro hc3 hc2
  have hq : evaluate_spline coeffs (-coeffs.c1 / (2 * coeffs.c2)) ∈
      extrema_candidates sq coeffs := by
    unfold extrema_candidates
    rw [if_pos hc3, if_pos hc2]
    simp
  exact ⟨list_min_le_mem hq, mem_le_list_max hq⟩

/-- C3 amended witness at the concrete quadratic `ex3`. -/
theorem get_local_extrema_candidate_span_witness :
    (get_local_extrema (fun _ => 0) ex3).1 ≤
        evaluate_spline ex3 (-ex3.c1 / (2 * ex3.c2)) ∧
      evaluate_spline ex3 (-ex3.c1 / (2 * ex3.c2)) ≤
        (get_local_extrema (fun _ => 0) ex3).2 :=
  (get_local_extrema_candidate_span (fun _ => 0) ex3).2.2
    (by with_unfolding_all decide) (by with_unfolding_all decide)

/-- C4: when one trajectory finishes strictly before the other starts,
`between` returns no conflict. -/
theorem between_no_time_overlap (env : Env) (profile_a : ProfileImpl)
    (wa : List Waypoint) (profile_b : ProfileImpl) (wb : List Waypoint)
    (ha : 2 ≤ wa.length) (hb : 2 ≤ wb.length)
    (h : trajFinishTime wa < trajStartTime wb ∨
      trajFinishTime wb < trajStartTime wa) :
    DetectConflict_between env profile_a wa profile_b wb = .ok none := by
  have hto : have_time_overlap wa wb = false := by
    unfold have_time_overlap
    rcases h with h | h
    · by_cases h1 : trajFinishTime wb < trajStartTime wa
      · rw [if_pos h1]
      · rw [if_neg h1, if_pos h]
    · rw [if_pos h]
  unfold DetectConflict_between between_impl
  rw [if_neg (by omega), if_neg (by omega)]
  dsimp only
  rw [hto]
  split_ifs <;> simp_all [Except.map]

/-- C4 witness: the trajectory on times 0 to 1 against the one on 2 to 3. -/
theorem between_no_time_overlap_witness :
    DetectConflict_between cEnv cpa cwa cpb cwb2 = .ok none :=
  between_no_time_overlap cEnv cpa cwa cpb cwb2 (by decide) (by decide)
    (Or.inl (by with_unfolding_all decide))

/-- Whether a call failed out-of-band. -/
def is_error {ε α : Type} : Except ε α → Bool
  | .error _ => true
  | .ok _ => false

/-- C5: `between` (in either form) raises `invalid_trajectory_error` exactly
when an input trajectory has fewer than two waypoints; on every other input
the call returns an ordinary value, reporting no conflict as `none`. -/
theorem between_invalid_trajectory_iff (env : Env) (profile_a : ProfileImpl)
    (wa : List Waypoint) (profile_b : ProfileImpl) (wb : List Waypoint)
    (collect : Bool) :
    is_error (between_impl env profile_a wa profile_b wb collect) = true ↔
      (wa.length < 2 ∨ wb.length < 2) := by
  unfold between_impl
  by_cases h1 : wa.length < 2
  · rw [if_pos h1]
    simp [is_error, h1]
  · rw [if_neg h1]
    by_cases h2 : wb.length < 2
    · rw [if_pos h2]
      simp [is_error, h1, h2]
    · rw [if_neg h2]
      dsimp only
      split_ifs <;> simp [is_error, h1, h2]

/-- C5 witness: an empty trajectory raises; the valid scenario pair does
not. -/
theorem between_invalid_trajectory_iff_witness :
    is_error (between_impl cEnv cpa [] cpb cwa false) = true ∧
      is_error (between_impl cEnv cpa cwa cpb cwa false) = false :=
  ⟨(between_invalid_trajectory_iff cEnv cpa [] cpb cwa false).mpr
      (Or.inl (by decide)),
    by with_unfolding_all decide⟩

/-- C6: with both footprints absent `between` reports no conflict, and with
either vicinity still absent after normalization it likewise reports no
conflict. -/
theorem between_empty_geometry (env : Env) (profile_a : ProfileImpl)
    (wa : List Waypoint) (profile_b : ProfileImpl) (wb : List Waypoint)
    (ha : 2 ≤ wa.length) (hb : 2 ≤ wb.length) :
    (profile_a.footprint = none ∧ profile_b.footprint = none →
      DetectConflict_between env profile_a wa profile_b wb = .ok none) ∧
    ((convert_profile profile_a).vicinity = none ∨
      (convert_profile profile_b).vicinity = none →
      DetectConflict_between env profile_a wa profile_b wb = .ok none) := by
  constructor
  · intro hfp
    have hfp2 : (convert_profile profile_a).footprint = none ∧
        (convert_profile profile_b).footprint = none := by
      rw [convert_profile_footprint, convert_profile_footprint]
      exact hfp
    unfold DetectConflict_between between_impl
    rw [if_neg (by omega), if_neg (by omega)]
    dsimp only
    rw [if_pos hfp2]
    rfl
  · intro hv
    unfold DetectConflict_between between_impl
    rw [if_neg (by omega), if_neg (by omega)]
    dsimp only
    split_ifs with h1
    · rfl
    · rfl

/-- C6 witness: two profiles with no geometry at all. -/
theorem between_empty_geometry_witness :
    DetectConflict_between cEnv pempty cwa pempty cwa = .ok none :=
  (between_empty_geometry cEnv pempty cwa pempty cwa (by decide)
    (by decide)).1 ⟨rfl, rfl⟩

/-- C9: the region-variant operation performs no vicinity normalization: a
profile whose vicinity is absent is never tested against the region, even
when its footprint is present — the call reports no conflict and leaves the
output list untouched. -/
theorem detect_conflicts_requires_vicinity (env : Env) (fp : Option Shape)
    (wps : List Waypoint) (region : Spacetime) (collect : Bool)
    (acc : List Conflict) (h : 2 ≤ wps.length) :
    internal_detect_conflicts env ⟨fp, none⟩ wps region collect acc =
      .ok (false, acc) := by
  unfold internal_detect_conflicts
  rw [if_neg (by omega)]

/-- C9 witness: a footprint-only profile against a region. -/
theorem detect_conflicts_requires_vicinity_witness :
    internal_detect_conflicts cEnv ⟨some ⟨0, 1⟩, none⟩ cwa cregion false [] =
      .ok (false, []) :=
  detect_conflicts_requires_vicinity cEnv (some ⟨0, 1⟩) cwa cregion false []
    (by decide)

/-- The first resource of the reservation tests. -/
def wp0 : String := "waypoint_0"

/-- The second resource of the reservation tests. -/
def wp1 : String := "waypoint_1"

/-- The admission scenario: three identical requests on two resources. -/
def scn1 : Option Reservation × ReservationSystem :=
  reserve ⟨0, []⟩ 0 [wp0, wp1] (some 2)

/-- Second identical request, after the first was granted. -/
def scn2 : Option Reservation × ReservationSystem :=
  reserve scn1.2 0 [wp0, wp1] (some 2)

/-- Third identical request, after the first two were granted. -/
def scn3 : Option Reservation × ReservationSystem :=
  reserve scn2.2 0 [wp0, wp1] (some 2)

/-- A successful `find?` returns the first list entry satisfying the
predicate: it is at some index, it satisfies the predicate, and every
earlier entry fails it. -/
theorem find?_first {α : Type} (p : α → Bool) (d : α) :
    ∀ (l : List α) (a : α), l.find? p = some a →
      ∃ i, i < l.length ∧ l.getD i d = a ∧ p a = true ∧
        ∀ j, j < i → p (l.getD j d) = false := by
  intro l
  induction l with
  | nil => intro a h; cases h
  | cons x xs ih =>
    intro a h
    by_cases hx : p x = true
    · rw [List.find?_cons_of_pos _ hx] at h
      injection h with h
      subst h
      exact ⟨0, by simp, by simp, hx, fun j hj => absurd hj (by omega)⟩
    · rw [List.find?_cons_of_neg _ hx] at h
      obtain ⟨i, hi, hg, hp, hbef⟩ := ih a h
      refine ⟨i + 1, by simpa using hi, by simpa using hg, hp, ?_⟩
      intro j hj
      cases j with
      | zero => simpa using Bool.of_not_eq_true hx
      | succ j => simpa using hbef j (by omega)

/-- C7: `reserve` walks the preference list in order: it returns `none`
exactly when every listed resource conflicts with an existing reservation
on the requested interval, and a granted reservation sits on the first
conflict-free resource of the list.  In particular, on two free resources
the second identical request is granted on the second resource and the
third identical request is rejected. -/
theorem reserve_admission (sys : ReservationSystem) (start_time : ℚ)
    (resources : List String) (duration : Option ℚ) :
    (((reserve sys start_time resources duration).1 = none ↔
      ∀ w ∈ resources, conflicts_on sys.reservations w start_time
        (reservation_end start_time duration) = true) ∧
    (∀ r, (reserve sys start_time resources duration).1 = some r →
      ∃ i, i < resources.length ∧ resources.getD i default = r.waypoint ∧
        conflicts_on sys.reservations r.waypoint start_time
          (reservation_end start_time duration) = false ∧
        ∀ j, j < i → conflicts_on sys.reservations
          (resources.getD j default) start_time
          (reservation_end start_time duration) = true)) ∧
    (scn2.1.map Reservation.waypoint = some wp1 ∧ scn3.1 = none) := by
  constructor
  · constructor
    · unfold reserve
      dsimp only
      cases hf : resources.find?
          (fun w => !(conflicts_on sys.reservations w start_time
            (reservation_end start_time duration))) with
      | some w =>
        simp only [hf]
        constructor
        · intro hc
          cases hc
        · intro hall
          have hw := List.find?_some hf
          have hmem := List.mem_of_find?_eq_some hf
          rw [Bool.not_eq_true', hall w hmem] at hw
          cases hw
      | none =>
        simp only [hf]
        constructor
        · intro _ w hmem
          have := List.find?_eq_none.mp hf w hmem
          simpa using this
        · intro _
          trivial
    · intro r hr
      unfold reserve at hr
      dsimp only at hr
      cases hf : resources.find?
          (fun w => !(conflicts_on sys.reservations w start_time
            (reservation_end start_time duration))) with
      | none =>
        rw [hf] at hr
        cases hr
      | some w =>
        rw [hf] at hr
        simp only at hr
        injection hr with hr2
        subst hr2
        obtain ⟨i, hi, hg, hp, hbef⟩ := find?_first _ default resources w hf
        refine ⟨i, hi, ?_, ?_, ?_⟩
        · simpa using hg
        · simpa using hp
        · intro j hj
          simpa using hbef j hj
  · constructor
    · with_unfolding_all decide
    · with_unfolding_all decide

/-- C7 witness: on an empty preference list every resource (vacuously)
conflicts, so `reserve` returns `none`. -/
theorem reserve_admission_witness :
    (reserve ⟨0, []⟩ 0 [] (some 2)).1 = none :=
  (reserve_admission ⟨0, []⟩ 0 [] (some 2)).1.1.mpr (by simp)

/-- C8: cancelling a granted reservation by its id restores admissibility:
the cancellation succeeds, and repeating the `reserve` call with the
identical arguments that produced the reservation is granted again. -/
theorem cancel_round_trip (sys : ReservationSystem) (start_time : ℚ)
    (resources : List String) (duration : Option ℚ) (r : Reservation)
    (sys1 : ReservationSystem)
    (hid : ∀ x ∈ sys.reservations, x.reservation_id < sys.next_id)
    (hr : reserve sys start_time resources duration = (some r, sys1)) :
    (∀ sys2, cancel_reservation sys1 r.reservation_id = .ok sys2 →
      (reserve sys2 start_time resources duration).1.isSome = true) ∧
    is_error (cancel_reservation sys1 r.reservation_id) = false := by
  unfold reserve at hr
  dsimp only at hr
  cases hf : resources.find?
      (fun w => !(conflicts_on sys.reservations w start_time
        (reservation_end start_time duration))) with
  | none =>
    rw [hf] at hr
    dsimp only at hr
    exact absurd (congrArg Prod.fst hr) (by simp)
  | some w =>
    rw [hf] at hr
    dsimp only at hr
    simp only [Prod.mk.injEq, Option.some.injEq] at hr
    obtain ⟨hrr, hsys1⟩ := hr
    have hfilter : sys.reservations.filter
        (fun x => x.reservation_id ≠ sys.next_id) = sys.reservations := by
      apply List.filter_eq_self.mpr
      intro x hx
      simpa using Nat.ne_of_lt (hid x hx)
    have hc : cancel_reservation sys1 r.reservation_id =
        .ok ⟨sys.next_id + 1, sys.reservations⟩ := by
      subst hsys1
      rw [← hrr]
      unfold cancel_reservation
      rw [if_pos (by simp)]
      simp only [Except.ok.injEq]
      simp [List.filter_append, hfilter]
      intro a ha
      exact Nat.ne_of_lt (hid a ha)
    constructor
    · intro sys2 h2
      rw [hc] at h2
      injection h2 with h2
      subst h2
      unfold reserve
      dsimp only
      simp only [hf]
      rfl
    · rw [hc]
      rfl

/-- In collect mode the invasion body never returns early: it appends the
conflicts of both checks to the accumulator and continues. -/
theorem invasion_body_collect (env : Env) (pa pb : ProfileImpl) (tc : Bool)
    (sa sb : Spline) (ia ib : ℕ) (acc : List Conflict) :
    invasion_body env pa pb tc true sa sb ia ib acc =
      .inr ((acc ++
        ((invasion_check1 env pa pb sa sb).map
          (fun t => Conflict.mk ia ib t)).toList) ++
        ((if tc then invasion_check2 env pa pb sa sb else none).map
          (fun t => Conflict.mk ia ib t)).toList) := by
  unfold invasion_body
  simp

/-- In collect mode the invasion loop reports the time of the first entry
of its output list (or `none` when the list is empty). -/
theorem invasion_loop_collect_fst (env : Env) (pa : ProfileImpl)
    (wa : List Waypoint) (pb : ProfileImpl) (wb : List Waypoint) (tc : Bool) :
    ∀ (fuel ia ib : ℕ) (acc : List Conflict),
      (invasion_loop env pa wa pb wb tc true fuel ia ib acc).1 =
        ((invasion_loop env pa wa pb wb tc true fuel ia ib acc).2).head?.map
          Conflict.time := by
  intro fuel
  induction fuel with
  | zero => intro ia ib acc; rfl
  | succ fuel ih =>
    intro ia ib acc
    by_cases h : ia < wa.length ∧ ib < wb.length
    · rw [invasion_loop, if_pos h]
      dsimp only
      rw [invasion_body_collect]
      dsimp only
      split_ifs <;> apply ih
    · rw [invasion_loop, if_neg h]

/-- Collect-mode head property for the `detect_invasion` entry point. -/
theorem detect_invasion_collect_fst (env : Env) (pa : ProfileImpl)
    (wa : List Waypoint) (ia : ℕ) (pb : ProfileImpl) (wb : List Waypoint)
    (ib : ℕ) :
    (detect_invasion env pa wa ia pb wb ib true).1 =
      ((detect_invasion env pa wa ia pb wb ib true).2).head?.map
        Conflict.time := by
  unfold detect_invasion
  exact invasion_loop_collect_fst env pa wa pb wb _ _ ia ib []

/-- Collect-mode head property for the early returns of the approach-times
loop (they all come from `detect_invasion` on the sliced trajectories). -/
theorem approach_times_loop_collect (env : Env) (pa : ProfileImpl)
    (wa : List Waypoint) (pb : ProfileImpl) (wb : List Waypoint)
    (ia ib : ℕ) (sa sb : Spline) :
    ∀ (ts : List ℚ) (acc : List Conflict) (r : Option ℚ × List Conflict),
      approach_times_loop env pa wa pb wb ia ib sa sb true ts acc = .inl r →
        r.1 = r.2.head?.map Conflict.time := by
  intro ts
  induction ts with
  | nil =>
    intro acc r h
    cases h
  | cons t ts ih =>
    intro acc r h
    rw [approach_times_loop] at h
    simp only [Bool.not_true, Bool.false_eq_true, if_false] at h
    split_ifs at h with h1
    · injection h with h
      rw [← h]
      exact detect_invasion_collect_fst env pa _ 1 pb _ 1
    · exact ih _ r h

/-- In collect mode the approach loop reports the time of the first entry
of its output list (or `none` when the list is empty). -/
theorem approach_loop_collect_fst (env : Env) (pa : ProfileImpl)
    (wa : List Waypoint) (pb : ProfileImpl) (wb : List Waypoint) :
    ∀ (fuel ia ib : ℕ) (acc : List Conflict),
      (approach_loop env pa wa pb wb true fuel ia ib acc).1 =
        ((approach_loop env pa wa pb wb true fuel ia ib acc).2).head?.map
          Conflict.time := by
  intro fuel
  induction fuel with
  | zero => intro ia ib acc; rfl
  | succ fuel ih =>
    intro ia ib acc
    by_cases h : ia < wa.length ∧ ib < wb.length
    · rw [approach_loop, if_pos h]
      simp only [Bool.not_true, Bool.false_and, Bool.false_eq_true, if_false]
      split
      · rename_i r heq
        exact approach_times_loop_collect env pa wa pb wb ia ib _ _ _ _ r heq
      · rename_i acc2 heq
        split_ifs <;>
          first
            | apply detect_invasion_collect_fst
            | apply ih
    · rw [approach_loop, if_neg h]

/-- C2 counterexample: on the concrete scenario `between_all` detects two
conflicts in the same spline window — the (footprint a, vicinity b) pair at
time one half and the (vicinity a, footprint b) pair at time one quarter —
and returns one half, although the strictly earlier conflict at one quarter
was detected during the same call. -/
theorem between_all_not_earliest :
    DetectConflict_between_all cEnv cpa cwa cpb cwa =
      .ok (some ((1 : ℚ) / 2),
        [⟨1, 1, (1 : ℚ) / 2⟩, ⟨1, 1, (1 : ℚ) / 4⟩]) ∧
    (1 : ℚ) / 4 < (1 : ℚ) / 2 :=
  ⟨by with_unfolding_all decide, by with_unfolding_all decide⟩

/-- Components of a pair equation, oriented for rewriting. -/
theorem pair_eq_fst_snd {α β : Type} {p : α × β} {a : α} {b : β}
    (h : p = (a, b)) : a = p.1 ∧ b = p.2 := by
  rw [h]
  exact ⟨rfl, rfl⟩

/-- C2 amended: the time reported by `between_all` is the time of the first
conflict in discovery order — the first entry of the output list — and it
is `none` exactly when the list is empty; it need not be the minimum over
all detected conflicts. -/
theorem between_all_first_entry (env : Env) (profile_a : ProfileImpl)
    (wa : List Waypoint) (profile_b : ProfileImpl) (wb : List Waypoint)
    (o : Option ℚ) (l : List Conflict)
    (h : DetectConflict_between_all env profile_a wa profile_b wb = .ok (o, l)) :
    o = l.head?.map Conflict.time := by
  unfold DetectConflict_between_all between_impl at h
  dsimp only at h
  split_ifs at h with h1 h2 h3 h4 h5
  · injection h with h
    obtain ⟨ho, hl⟩ := pair_eq_fst_snd h
    rw [ho, hl]
    rfl
  · injection h with h
    obtain ⟨ho, hl⟩ := pair_eq_fst_snd h
    rw [ho, hl]
    rfl
  · injection h with h
    obtain ⟨ho, hl⟩ := pair_eq_fst_snd h
    rw [ho, hl]
    rfl
  · injection h with h
    obtain ⟨ho, hl⟩ := pair_eq_fst_snd h
    rw [ho, hl]
    exact approach_loop_collect_fst env _ wa _ wb _ _ _ []
  · injection h with h
    obtain ⟨ho, hl⟩ := pair_eq_fst_snd h
    rw [ho, hl]
    exact detect_invasion_collect_fst env _ wa _ _ wb _

/-- C2 amended witness at the concrete scenario. -/
theorem between_all_first_entry_witness :
    some ((1 : ℚ) / 2) =
      ([⟨1, 1, (1 : ℚ) / 2⟩, ⟨1, 1, (1 : ℚ) / 4⟩] : List Conflict).head?.map
        Conflict.time :=
  between_all_first_entry cEnv cpa cwa cpb cwa _ _
    (by with_unfolding_all decide)

/-- Broadphase overlap is symmetric in its two boxes. -/
theorem overlap_comm (a b : BoundingBox) : overlap a b = overlap b a := by
  cases a with
  | none => cases b <;> rfl
  | some x =>
    cases b with
    | none => rfl
    | some y =>
      simp only [overlap]
      split_ifs <;> first | rfl | (exfalso; linarith)

/-- With a symmetric discrete collision oracle, the static `check_overlap`
is symmetric in the two vehicles. -/
theorem check_overlap_comm (env : Env)
    (hs : ∀ s1 p1 s2 p2, env.staticCollide s1 p1 s2 p2 =
      env.staticCollide s2 p2 s1 p1)
    (pa : ProfileImpl) (sa : Spline) (pb : ProfileImpl) (sb : Spline)
    (t : ℚ) :
    check_overlap env pa sa pb sb t = check_overlap env pb sb pa sa t := by
  unfold check_overlap
  dsimp only
  rw [hs (pa.footprint.getD dshape) _ (pb.vicinity.getD dshape) _,
    hs (pa.vicinity.getD dshape) _ (pb.footprint.getD dshape) _,
    Bool.or_comm]

/-- With a symmetric continuous-collision oracle, the first invasion check
of the swapped call is the complement check of the original call. -/
theorem invasion_check1_swap (env : Env)
    (hcc : ∀ s1 a s2 b u v, env.cc s1 a s2 b u v = env.cc s2 b s1 a u v)
    (pa pb : ProfileImpl) (sa sb : Spline) :
    invasion_check1 env pb pa sb sa = invasion_check2 env pa pb sa sb := by
  unfold invasion_check1 invasion_check2
  dsimp only
  rw [max_comm sb.startTime, min_comm sb.finishTime, overlap_comm, hcc]

/-- With a symmetric continuous-collision oracle, the complement invasion
check of the swapped call is the first check of the original call. -/
theorem invasion_check2_swap (env : Env)
    (hcc : ∀ s1 a s2 b u v, env.cc s1 a s2 b u v = env.cc s2 b s1 a u v)
    (pa pb : ProfileImpl) (sa sb : Spline) :
    invasion_check2 env pb pa sb sa = invasion_check1 env pa pb sa sb := by
  unfold invasion_check1 invasion_check2
  dsimp only
  rw [max_comm sb.startTime, min_comm sb.finishTime, overlap_comm, hcc]

/-- When each profile's vicinity pointer equals its footprint pointer the
complement check coincides with the first check. -/
theorem invasion_check2_eq_of_eq (env : Env) (pa pb : ProfileImpl)
    (hea : pa.vicinity = pa.footprint) (heb : pb.vicinity = pb.footprint)
    (sa sb : Spline) :
    invasion_check2 env pa pb sa sb = invasion_check1 env pa pb sa sb := by
  simp only [invasion_check1, invasion_check2, get_bounding_profile]
  simp only [hea, heb]

/-- Normal form of the invasion body without an output list: return at the
first successful check, otherwise continue with the untouched accumulator. -/
theorem invasion_body_noncollect (env : Env) (pa pb : ProfileImpl)
    (tc : Bool) (sa sb : Spline) (ia ib : ℕ) (acc : List Conflict) :
    invasion_body env pa pb tc false sa sb ia ib acc =
      (match invasion_check1 env pa pb sa sb with
       | some t => .inl (some t, acc)
       | none =>
         match (if tc then invasion_check2 env pa pb sa sb else none) with
         | some t => .inl (some t, acc)
         | none => .inr acc) := by
  unfold invasion_body
  cases hc1 : invasion_check1 env pa pb sa sb with
  | some t => rfl
  | none =>
    dsimp only
    cases hc2 : (if tc then invasion_check2 env pa pb sa sb else none) with
    | some t => simp
    | none => simp

/-- Mirror lemma for the invasion loop without an output list: swapping the
two vehicles preserves whether a conflict is found.  The flag `tc` is the
complement-test flag; when it is false both profiles have vicinity equal to
footprint, as computed by `detect_invasion`. -/
theorem invasion_loop_mirror (env : Env)
    (hcc : ∀ s1 a s2 b u v, env.cc s1 a s2 b u v = env.cc s2 b s1 a u v)
    (pa : ProfileImpl) (wa : List Waypoint) (pb : ProfileImpl)
    (wb : List Waypoint) (tc : Bool)
    (hfv : tc = false →
      pa.vicinity = pa.footprint ∧ pb.vicinity = pb.footprint) :
    ∀ (fuel ia ib : ℕ) (acc : List Conflict),
      (invasion_loop env pa wa pb wb tc false fuel ia ib acc).1.isSome =
        (invasion_loop env pb wb pa wa tc false fuel ib ia acc).1.isSome := by
  intro fuel
  induction fuel with
  | zero => intro ia ib acc; rfl
  | succ fuel ih =>
    intro ia ib acc
    by_cases h : ia < wa.length ∧ ib < wb.length
    · rw [invasion_loop, invasion_loop, if_pos h, if_pos (And.intro h.2 h.1)]
      dsimp only
      rw [invasion_body_noncollect, invasion_body_noncollect,
        invasion_check1_swap env hcc pa pb (splineAt env wa ia)
          (splineAt env wb ib),
        invasion_check2_swap env hcc pa pb (splineAt env wa ia)
          (splineAt env wb ib)]
      cases tc with
      | false =>
        obtain ⟨hea, heb⟩ := hfv rfl
        simp only [Bool.false_eq_true, if_false]
        rw [invasion_check2_eq_of_eq env pa pb hea heb]
        cases hc1 : invasion_check1 env pa pb (splineAt env wa ia)
            (splineAt env wb ib) with
        | some t => rfl
        | none =>
          dsimp only
          rcases lt_trichotomy (splineAt env wa ia).finishTime
              (splineAt env wb ib).finishTime with hlt | heq | hgt
          · rw [if_pos hlt, if_neg (lt_asymm hlt), if_pos hlt]
            exact ih (ia + 1) ib acc
          · have hn1 : ¬ (splineAt env wa ia).finishTime <
                (splineAt env wb ib).finishTime := by
              rw [heq]
              exact lt_irrefl _
            have hn2 : ¬ (splineAt env wb ib).finishTime <
                (splineAt env wa ia).finishTime := by
              rw [heq]
              exact lt_irrefl _
            rw [if_neg hn1, if_neg hn2, if_neg hn2, if_neg hn1]
            exact ih (ia + 1) (ib + 1) acc
          · rw [if_neg (lt_asymm hgt), if_pos hgt, if_pos hgt]
            exact ih ia (ib + 1) acc
      | true =>
        simp only [eq_self_iff_true, if_true]
        cases hc1 : invasion_check1 env pa pb (splineAt env wa ia)
            (splineAt env wb ib) with
        | some t =>
          cases hc2 : invasion_check2 env pa pb (splineAt env wa ia)
              (splineAt env wb ib) with
          | some t2 => rfl
          | none => rfl
        | none =>
          cases hc2 : invasion_check2 env pa pb (splineAt env wa ia)
              (splineAt env wb ib) with
          | some t2 => rfl
          | none =>
            dsimp only
            rcases lt_trichotomy (splineAt env wa ia).finishTime
                (splineAt env wb ib).finishTime with hlt | heq | hgt
            · rw [if_pos hlt, if_neg (lt_asymm hlt), if_pos hlt]
              exact ih (ia + 1) ib acc
            · have hn1 : ¬ (splineAt env wa ia).finishTime <
                  (splineAt env wb ib).finishTime := by
                rw [heq]
                exact lt_irrefl _
              have hn2 : ¬ (splineAt env wb ib).finishTime <
                  (splineAt env wa ia).finishTime := by
                rw [heq]
                exact lt_irrefl _
              rw [if_neg hn1, if_neg hn2, if_neg hn2, if_neg hn1]
              exact ih (ia + 1) (ib + 1) acc
            · rw [if_neg (lt_asymm hgt), if_pos hgt, if_pos hgt]
              exact ih ia (ib + 1) acc
    · rw [invasion_loop, invasion_loop, if_neg h,
        if_neg (fun hc => h (And.intro hc.2 hc.1))]

/-- Mirror lemma for the `detect_invasion` entry point without an output
list. -/
theorem detect_invasion_mirror (env : Env)
    (hcc : ∀ s1 a s2 b u v, env.cc s1 a s2 b u v = env.cc s2 b s1 a u v)
    (pa : ProfileImpl) (wa : List Waypoint) (ia : ℕ) (pb : ProfileImpl)
    (wb : List Waypoint) (ib : ℕ) :
    (detect_invasion env pa wa ia pb wb ib false).1.isSome =
      (detect_invasion env pb wb ib pa wa ia false).1.isSome := by
  unfold detect_invasion
  dsimp only
  rw [Bool.or_comm (decide (pb.vicinity ≠ pb.footprint)),
    Nat.add_comm wb.length wa.length]
  apply invasion_loop_mirror env hcc
  intro htc
  obtain ⟨h1, h2⟩ := Bool.or_eq_false_iff.mp htc
  exact ⟨not_ne_iff.mp (of_decide_eq_false h1),
    not_ne_iff.mp (of_decide_eq_false h2)⟩

/-- Relation between the results of mirrored approach-times loops: early
returns agree on whether a conflict was found, fall-throughs carry the same
accumulator. -/
def mirror_rel :
    (Option ℚ × List Conflict) ⊕ List Conflict →
      (Option ℚ × List Conflict) ⊕ List Conflict → Prop
  | .inl r, .inl r2 => r.1.isSome = r2.1.isSome
  | .inr a1, .inr a2 => a1 = a2
  | .inl _, .inr _ => False
  | .inr _, .inl _ => False

/-- Mirror lemma for the approach-times loop without an output list. -/
theorem approach_times_loop_mirror (env : Env)
    (hcc : ∀ s1 a s2 b u v, env.cc s1 a s2 b u v = env.cc s2 b s1 a u v)
    (hs : ∀ s1 p1 s2 p2, env.staticCollide s1 p1 s2 p2 =
      env.staticCollide s2 p2 s1 p1)
    (pa : ProfileImpl) (wa : List Waypoint) (pb : ProfileImpl)
    (wb : List Waypoint) (ia ib : ℕ) (sa sb : Spline) :
    ∀ (ts : List ℚ) (acc : List Conflict),
      mirror_rel
        (approach_times_loop env pa wa pb wb ia ib sa sb false ts acc)
        (approach_times_loop env pb wb pa wa ib ia sb sa false ts acc) := by
  intro ts
  induction ts with
  | nil => intro acc; exact rfl
  | cons t ts ih =>
    intro acc
    rw [approach_times_loop, approach_times_loop,
      check_overlap_comm env hs pb sb pa sa t]
    by_cases hco : check_overlap env pa sa pb sb t = false
    · rw [if_pos hco, if_pos hco]
      exact detect_invasion_mirror env hcc pa _ 1 pb _ 1
    · rw [if_neg hco, if_neg hco]
      simp only [Bool.not_false, if_true]
      exact rfl

/-- Mirror lemma for the approach loop without an output list: swapping the
two vehicles preserves whether a conflict is found. -/
theorem approach_loop_mirror (env : Env)
    (hcc : ∀ s1 a s2 b u v, env.cc s1 a s2 b u v = env.cc s2 b s1 a u v)
    (hs : ∀ s1 p1 s2 p2, env.staticCollide s1 p1 s2 p2 =
      env.staticCollide s2 p2 s1 p1)
    (hap : ∀ a b, env.initiallyApproaching a b = env.initiallyApproaching b a)
    (hat : ∀ a b, env.approachTimes a b = env.approachTimes b a)
    (pa : ProfileImpl) (wa : List Waypoint) (pb : ProfileImpl)
    (wb : List Waypoint) :
    ∀ (fuel ia ib : ℕ) (acc : List Conflict),
      (approach_loop env pa wa pb wb false fuel ia ib acc).1.isSome =
        (approach_loop env pb wb pa wa false fuel ib ia acc).1.isSome := by
  intro fuel
  induction fuel with
  | zero => intro ia ib acc; rfl
  | succ fuel ih =>
    intro ia ib acc
    by_cases h : ia < wa.length ∧ ib < wb.length
    · rw [approach_loop, approach_loop, if_pos h, if_pos (And.intro h.2 h.1)]
      dsimp only
      rw [hap (splineAt env wb ib) (splineAt env wa ia),
        hat (splineAt env wb ib) (splineAt env wa ia),
        max_comm (splineAt env wb ib).startTime,
        min_comm (splineAt env wb ib).finishTime,
        check_overlap_comm env hs pb (splineAt env wb ib) pa
          (splineAt env wa ia)]
      cases hia2 : env.initiallyApproaching (splineAt env wa ia)
          (splineAt env wb ib) with
      | true =>
        simp only [Bool.not_false, Bool.true_and, eq_self_iff_true, if_true]
      | false =>
        simp only [Bool.not_false, Bool.true_and, Bool.false_eq_true,
          if_false, List.append_nil]
        have hrel := approach_times_loop_mirror env hcc hs pa wa pb wb ia ib
          (splineAt env wa ia) (splineAt env wb ib)
          (env.approachTimes (splineAt env wa ia) (splineAt env wb ib)) acc
        cases hA : approach_times_loop env pa wa pb wb ia ib
            (splineAt env wa ia) (splineAt env wb ib) false
            (env.approachTimes (splineAt env wa ia) (splineAt env wb ib))
            acc with
        | inl r =>
          cases hB : approach_times_loop env pb wb pa wa ib ia
              (splineAt env wb ib) (splineAt env wa ia) false
              (env.approachTimes (splineAt env wa ia) (splineAt env wb ib))
              acc with
          | inl r2 =>
            rw [hA, hB] at hrel
            exact hrel
          | inr a2 =>
            rw [hA, hB] at hrel
            exact hrel.elim
        | inr a1 =>
          cases hB : approach_times_loop env pb wb pa wa ib ia
              (splineAt env wb ib) (splineAt env wa ia) false
              (env.approachTimes (splineAt env wa ia) (splineAt env wb ib))
              acc with
          | inl r2 =>
            rw [hA, hB] at hrel
            exact hrel.elim
          | inr a2 =>
            rw [hA, hB] at hrel
            cases hrel
            dsimp only
            rcases lt_trichotomy (splineAt env wa ia).finishTime
                (splineAt env wb ib).finishTime with hlt | heq | hgt
            · rw [if_pos hlt, if_neg (lt_asymm hlt), if_pos hlt]
              by_cases hsc : check_overlap env pa (splineAt env wa ia) pb
                  (splineAt env wb ib)
                  (min (splineAt env wa ia).finishTime
                    (splineAt env wb ib).finishTime) = false
              · rw [if_pos hsc, if_pos hsc]
                exact detect_invasion_mirror env hcc pa wa (ia + 1) pb wb ib
              · rw [if_neg hsc, if_neg hsc]
                exact ih (ia + 1) ib a1
            · have hn1 : ¬ (splineAt env wa ia).finishTime <
                  (splineAt env wb ib).finishTime := by
                rw [heq]
                exact lt_irrefl _
              have hn2 : ¬ (splineAt env wb ib).finishTime <
                  (splineAt env wa ia).finishTime := by
                rw [heq]
                exact lt_irrefl _
              rw [if_neg hn1, if_neg hn2, if_neg hn2, if_neg hn1]
              by_cases hsc : check_overlap env pa (splineAt env wa ia) pb
                  (splineAt env wb ib)
                  (min (splineAt env wa ia).finishTime
                    (splineAt env wb ib).finishTime) = false
              · rw [if_pos hsc, if_pos hsc]
                exact detect_invasion_mirror env hcc pa wa (ia + 1) pb wb
                  (ib + 1)
              · rw [if_neg hsc, if_neg hsc]
                exact ih (ia + 1) (ib + 1) a1
            · rw [if_neg (lt_asymm hgt), if_pos hgt, if_pos hgt]
              by_cases hsc : check_overlap env pa (splineAt env wa ia) pb
                  (splineAt env wb ib)
                  (min (splineAt env wa ia).finishTime
                    (splineAt env wb ib).finishTime) = false
              · rw [if_pos hsc, if_pos hsc]
                exact detect_invasion_mirror env hcc pa wa ia pb wb (ib + 1)
              · rw [if_neg hsc, if_neg hsc]
                exact ih ia (ib + 1) a1
    · rw [approach_loop, approach_loop, if_neg h,
        if_neg (fun hc => h (And.intro hc.2 hc.1))]

/-- Mirror lemma for the `detect_approach` entry point without an output
list. -/
theorem detect_approach_mirror (env : Env)
    (hcc : ∀ s1 a s2 b u v, env.cc s1 a s2 b u v = env.cc s2 b s1 a u v)
    (hs : ∀ s1 p1 s2 p2, env.staticCollide s1 p1 s2 p2 =
      env.staticCollide s2 p2 s1 p1)
    (hap : ∀ a b, env.initiallyApproaching a b = env.initiallyApproaching b a)
    (hat : ∀ a b, env.approachTimes a b = env.approachTimes b a)
    (pa : ProfileImpl) (wa : List Waypoint) (ia : ℕ) (pb : ProfileImpl)
    (wb : List Waypoint) (ib : ℕ) :
    (detect_approach env pa wa ia pb wb ib false).1.isSome =
      (detect_approach env pb wb ib pa wa ia false).1.isSome := by
  unfold detect_approach
  rw [Nat.add_comm wb.length wa.length]
  exact approach_loop_mirror env hcc hs hap hat pa wa pb wb _ ia ib []

/-- Time overlap of two trajectories is symmetric. -/
theorem have_time_overlap_comm (wa wb : List Waypoint) :
    have_time_overlap wa wb = have_time_overlap wb wa := by
  unfold have_time_overlap
  by_cases h1 : trajFinishTime wb < trajStartTime wa
  · rw [if_pos h1]
    by_cases h2 : trajFinishTime wa < trajStartTime wb
    · rw [if_pos h2]
    · rw [if_neg h2, if_pos h1]
  · rw [if_neg h1]
    by_cases h2 : trajFinishTime wa < trajStartTime wb
    · rw [if_pos h2, if_pos h2]
    · rw [if_neg h2, if_neg h2, if_neg h1]

/-- Swapping the trajectories swaps the two initial iterators. -/
theorem get_initial_iterators_swap (wa wb : List Waypoint) :
    get_initial_iterators wb wa =
      ((get_initial_iterators wa wb).2, (get_initial_iterators wa wb).1) := by
  unfold get_initial_iterators
  dsimp only
  rcases lt_trichotomy (trajStartTime wa) (trajStartTime wb) with h | h | h
  · rw [if_neg (lt_asymm h), if_pos h, if_pos h]
  · rw [if_neg (by rw [h]; exact lt_irrefl _),
      if_neg (by rw [h]; exact lt_irrefl _),
      if_neg (by rw [h]; exact lt_irrefl _),
      if_neg (by rw [h]; exact lt_irrefl _)]
  · rw [if_pos h, if_pos h, if_neg (lt_asymm h)]

/-- With a symmetric discrete collision oracle, the initial-closeness test
is symmetric in the two vehicles. -/
theorem close_start_comm (env : Env)
    (hs : ∀ s1 p1 s2 p2, env.staticCollide s1 p1 s2 p2 =
      env.staticCollide s2 p2 s1 p1)
    (pa : ProfileImpl) (wa : List Waypoint) (ia : ℕ) (pb : ProfileImpl)
    (wb : List Waypoint) (ib : ℕ) :
    close_start env pa wa ia pb wb ib = close_start env pb wb ib pa wa ia := by
  unfold close_start
  dsimp only
  rw [check_overlap_comm env hs pa (splineAt env wa ia) pb (splineAt env wb ib),
    max_comm (splineAt env wa ia).startTime]

/-- C1 counterexample: with the symmetric concrete oracle environment, both
complement pairs collide in the same spline window, at fractions one half
and one quarter; `between` returns the contact time of whichever pair it
checks first, so the two argument orders return different times. -/
theorem between_not_symmetric :
    DetectConflict_between cEnv cpa cwa cpb cwa ≠
      DetectConflict_between cEnv cpb cwa cpa cwa := by
  with_unfolding_all decide

/-- C1 amended: for every valid input (trajectories with at least two
waypoints, and collision, distance and approach oracles that are symmetric
in the two bodies), the two argument orders of `between` agree on whether a
conflict exists — both raise the same verdict `none`, or both report some
conflict time; the reported times themselves may differ when both
complement pairs collide within the same spline window. -/
theorem between_symmetric_existence (env : Env)
    (hcc : ∀ s1 a s2 b u v, env.cc s1 a s2 b u v = env.cc s2 b s1 a u v)
    (hs : ∀ s1 p1 s2 p2, env.staticCollide s1 p1 s2 p2 =
      env.staticCollide s2 p2 s1 p1)
    (hap : ∀ a b, env.initiallyApproaching a b = env.initiallyApproaching b a)
    (hat : ∀ a b, env.approachTimes a b = env.approachTimes b a)
    (pa : ProfileImpl) (wa : List Waypoint) (pb : ProfileImpl)
    (wb : List Waypoint) (ha : 2 ≤ wa.length) (hb : 2 ≤ wb.length) :
    (DetectConflict_between env pa wa pb wb).map Option.isSome =
      (DetectConflict_between env pb wb pa wa).map Option.isSome := by
  unfold DetectConflict_between between_impl
  rw [if_neg (show ¬ wa.length < 2 by omega),
    if_neg (show ¬ wb.length < 2 by omega),
    if_neg (show ¬ wb.length < 2 by omega),
    if_neg (show ¬ wa.length < 2 by omega)]
  dsimp only
  by_cases hf : (convert_profile pa).footprint = none ∧
      (convert_profile pb).footprint = none
  · have hfs : (convert_profile pb).footprint = none ∧
        (convert_profile pa).footprint = none := And.intro hf.2 hf.1
    rw [if_pos hf, if_pos hfs]
  · have hfn : ¬((convert_profile pb).footprint = none ∧
        (convert_profile pa).footprint = none) :=
      fun hc => hf (And.intro hc.2 hc.1)
    rw [if_neg hf, if_neg hfn]
    by_cases hv : (convert_profile pa).vicinity = none ∨
        (convert_profile pb).vicinity = none
    · have hvs : (convert_profile pb).vicinity = none ∨
        (convert_profile pa).vicinity = none := Or.symm hv
      rw [if_pos hv, if_pos hvs]
    · have hvn : ¬((convert_profile pb).vicinity = none ∨
          (convert_profile pa).vicinity = none) :=
        fun hc => hv (Or.symm hc)
      rw [if_neg hv, if_neg hvn]
      rw [have_time_overlap_comm wb wa]
      by_cases hto : have_time_overlap wa wb = false
      · rw [if_pos hto, if_pos hto]
      · rw [if_neg hto, if_neg hto, get_initial_iterators_swap wa wb]
        dsimp only
        rw [close_start_comm env hs (convert_profile pb) wb
          (get_initial_iterators wa wb).2 (convert_profile pa) wa
          (get_initial_iterators wa wb).1]
        by_cases hcs : close_start env (convert_profile pa) wa
            (get_initial_iterators wa wb).1 (convert_profile pb) wb
            (get_initial_iterators wa wb).2 = true
        · rw [if_pos hcs, if_pos hcs]
          simp only [Except.map]
          exact congrArg Except.ok (detect_approach_mirror env hcc hs hap hat
            (convert_profile pa) wa (get_initial_iterators wa wb).1
            (convert_profile pb) wb (get_initial_iterators wa wb).2)
        · rw [if_neg hcs, if_neg hcs]
          simp only [Except.map]
          exact congrArg Except.ok (detect_invasion_mirror env hcc
            (convert_profile pa) wa (get_initial_iterators wa wb).1
            (convert_profile pb) wb (get_initial_iterators wa wb).2)

/-- C1 amended witness at the concrete scenario: both argument orders
report that a conflict exists. -/
theorem between_symmetric_existence_witness :
    (DetectConflict_between cEnv cpa cwa cpb cwa).map Option.isSome =
      (DetectConflict_between cEnv cpb cwa cpa cwa).map Option.isSome :=
  between_symmetric_existence cEnv
    (by
      intro s1 a s2 b u v
      show ccTable (min s1.sid s2.sid) (max s1.sid s2.sid) =
        ccTable (min s2.sid s1.sid) (max s2.sid s1.sid)
      rw [min_comm, max_comm])
    (fun _ _ _ _ => rfl) (fun _ _ => rfl) (fun _ _ => rfl)
    cpa cwa cpb cwa (by decide) (by decide)

/-- C8 witness: grant, cancel, and re-grant a two-hour reservation on one
resource from an empty scheduler. -/
theorem cancel_round_trip_witness :
    (reserve ⟨1, []⟩ 0 [wp0] (some 2)).1.isSome = true :=
  (cancel_round_trip ⟨0, []⟩ 0 [wp0] (some 2) ⟨0, wp0, 0, some 2⟩
      ⟨1, [⟨0, wp0, 0, some 2⟩]⟩ (by simp)
      (by with_unfolding_all decide)).1
    ⟨1, []⟩ (by with_unfolding_all decide)

end Rmf
